import Mathlib

/-!
Verification of the `service.allocate` model of the `hr_duty_planner` module
(`src/hr_duty_planner/models/service_allocate.py`).

The Python model is shallowly embedded: records become Lean structures, the
Odoo ORM primitives (`create`, `write`, `unlink`, recordset field access) become
explicit state-passing functions over a `Db` value, and the external
collaborators (service templates, employee skills, equipment and vehicle
categories) are modelled as read-only lookup tables in an `Env` value.
Datetimes are modelled as integers counted in hours, matching the only
arithmetic the source performs on them (`timedelta(hours=slot)`).
-/

namespace HrDuty

/-! ### String groundwork

The diagnostics are built by Python string concatenation; these lemmas relate
Lean `String` append to its character list. -/

theorem data_app (a b : String) : (a ++ b).data = a.data ++ b.data := by
  rcases a with ⟨da⟩
  rcases b with ⟨db⟩
  rfl

theorem str_eq_empty_iff (s : String) : s = "" ↔ s.data = [] := by
  constructor
  · intro h
    rw [h]
  · intro h
    rcases s with ⟨d⟩
    show String.mk d = String.mk []
    rw [show d = [] from h]

theorem str_app_eq_empty (a b : String) : a ++ b = "" ↔ a = "" ∧ b = "" := by
  rw [str_eq_empty_iff, str_eq_empty_iff, str_eq_empty_iff, data_app,
    List.append_eq_nil]

theorem str_empty_append (a : String) : "" ++ a = a := by
  rcases a with ⟨d⟩
  rfl

theorem str_append_assoc (a b c : String) : (a ++ b) ++ c = a ++ (b ++ c) := by
  rcases a with ⟨da⟩
  rcases b with ⟨db⟩
  rcases c with ⟨dc⟩
  show String.mk ((da ++ db) ++ dc) = String.mk (da ++ (db ++ dc))
  rw [List.append_assoc]

/-! ### Data model

`Requirement` models one line of a template's expected-resource lists
(`exp_skill_ids` / `exp_eqp_cat_ids` / `exp_vehicle_ids`): a category
reference together with its display name and the `min_qty` / `max_qty`
bounds.  The category name is carried inline (in the source it is resolved
through the referenced record, an external collaborator). -/

structure Requirement where
  category_id : Nat
  category_name : String
  min_qty : Int
  max_qty : Int
deriving DecidableEq

/-- `service.template` as consumed by `service.allocate`: duration (hours),
the three requirement lists, the allowed-container list
(`service_container_ids`, order preserved) and the optional successor
template (`next_template_id`). -/
structure ServiceTemplate where
  id : Nat
  duration : Int
  exp_skill_ids : List Requirement
  exp_eqp_cat_ids : List Requirement
  exp_vehicle_ids : List Requirement
  service_container_ids : List Nat
  next_template_id : Option Nat
deriving DecidableEq

/-- `maintenance.equipment`: only the fields the checks read. -/
structure Equipment where
  id : Nat
  category_id : Nat
deriving DecidableEq

/-- `fleet.vehicle`: only the fields the checks read. -/
structure Vehicle where
  id : Nat
  vehicle_category_id : Nat
deriving DecidableEq

/-- Read-only external collaborators: the template catalog, the
`hr.employee.skill` table as (employee id, skill id) pairs, and the
equipment / vehicle tables. -/
structure Env where
  templates : List ServiceTemplate
  employee_skills : List (Nat × Nat)
  equipments : List Equipment
  vehicles : List Vehicle
deriving DecidableEq

/-- A `service.allocate` record. -/
structure Service where
  id : Nat
  service_template_id : Nat
  service_container_id : Nat
  generation_id : Option String
  vehicle_ids : List Nat
  employee_ids : List Nat
  equipment_ids : List Nat
  employee_names : String
  employee_check : String
  equipment_check : String
  vehicle_check : String
  scheduled_start : Option Int
  scheduled_stop : Option Int
  start_real : Option Int
  stop_real : Option Int
  state : String
  parent_service_id : Option Nat
  next_service_id : Option Nat
deriving DecidableEq

/-- The persistence layer: the stored `service.allocate` records plus the
next fresh id the ORM will hand out. -/
structure Db where
  services : List Service
  next_id : Nat
deriving DecidableEq

/-- An empty template; `templateOf` falls back to it when the referenced
template does not exist (the field is `required` in the source, so real
states always resolve). -/
def default_template : ServiceTemplate :=
  ⟨0, 0, [], [], [], [], none⟩

/-- Resolve `service_template_id` against the catalog. -/
def templateOf (env : Env) (tid : Nat) : ServiceTemplate :=
  (env.templates.find? (fun t => t.id == tid)).getD default_template

/-! ### Coverage Validator

`_check_skill_request`, `_check_equipment_request` and
`_check_vehicle_request` share one shape: reset the diagnostic, loop over the
template's requirement list counting assigned resources that hold the
requested category, append `"Missing <name>\n"` on shortfall and
`"Too many <name>\n"` on excess (only when `max_qty > 0`), and finally
replace an empty diagnostic with `"All covered"`. -/

/-- The `available_qty` counting loop. -/
def count_matching (ids : List Nat) (p : Nat → Bool) : Nat :=
  ids.foldl (fun q i => if p i then q + 1 else q) 0

/-- Violation text one requirement contributes to the diagnostic. -/
def reqViolation (r : Requirement) (c : Nat) : String :=
  (if (c : Int) < r.min_qty then "Missing " ++ r.category_name ++ "\n" else "") ++
    (if 0 < r.max_qty ∧ r.max_qty < (c : Int) then
      "Too many " ++ r.category_name ++ "\n" else "")

/-- A requirement is satisfied by a count when no violation line is emitted:
the count reaches `min_qty` and, when `max_qty` is positive, does not exceed
it (`max_qty ≤ 0` meaning unbounded). -/
def reqSatisfied (r : Requirement) (c : Nat) : Prop :=
  r.min_qty ≤ (c : Int) ∧ (0 < r.max_qty → (c : Int) ≤ r.max_qty)

instance (r : Requirement) (c : Nat) : Decidable (reqSatisfied r c) := by
  unfold reqSatisfied
  infer_instance

/-- The accumulated diagnostic: fold of the per-requirement violation text,
with the empty string replaced by the sentinel. -/
def coverage_check (reqs : List Requirement) (count : Requirement → Nat) : String :=
  let msg := reqs.foldl (fun acc r => acc ++ reqViolation r (count r)) ""
  if msg = "" then "All covered" else msg

/-- Employees holding the requested skill among the assigned team
(`hr.employee.skill` search in the source). -/
def skill_count (env : Env) (s : Service) (r : Requirement) : Nat :=
  count_matching s.employee_ids
    (fun eid => env.employee_skills.any (fun p => p.1 == eid && p.2 == r.category_id))

/-- Assigned equipment holding the requested category. -/
def equipment_count (env : Env) (s : Service) (r : Requirement) : Nat :=
  count_matching s.equipment_ids
    (fun qid => env.equipments.any (fun e => e.id == qid && e.category_id == r.category_id))

/-- Assigned vehicles holding the requested category. -/
def vehicle_count (env : Env) (s : Service) (r : Requirement) : Nat :=
  count_matching s.vehicle_ids
    (fun vid => env.vehicles.any (fun v => v.id == vid && v.vehicle_category_id == r.category_id))

/-- `_check_skill_request` on a singleton recordset: recompute and persist
`employee_check`. -/
def check_skill_request (env : Env) (s : Service) : Service :=
  let diag := coverage_check (templateOf env s.service_template_id).exp_skill_ids
    (fun r => skill_count env s r)
  { s with employee_check := diag }

/-- `_check_equipment_request` on a singleton recordset. -/
def check_equipment_request (env : Env) (s : Service) : Service :=
  let diag := coverage_check (templateOf env s.service_template_id).exp_eqp_cat_ids
    (fun r => equipment_count env s r)
  { s with equipment_check := diag }

/-- `_check_vehicle_request` on a singleton recordset. -/
def check_vehicle_request (env : Env) (s : Service) : Service :=
  let diag := coverage_check (templateOf env s.service_template_id).exp_vehicle_ids
    (fun r => vehicle_count env s r)
  { s with vehicle_check := diag }

/-! ### Coverage Validator lemmas -/

theorem missing_ne_empty (name : String) : "Missing " ++ name ++ "\n" ≠ "" := by
  intro h
  rw [str_app_eq_empty] at h
  have h2 := h.2
  rw [str_eq_empty_iff] at h2
  exact absurd h2 (by decide)

theorem toomany_ne_empty (name : String) : "Too many " ++ name ++ "\n" ≠ "" := by
  intro h
  rw [str_app_eq_empty] at h
  have h2 := h.2
  rw [str_eq_empty_iff] at h2
  exact absurd h2 (by decide)

theorem newline_mem_line (pre name : String) :
    '\n' ∈ ((pre ++ name) ++ "\n").data := by
  rw [data_app]
  exact List.mem_append_right _ (by decide)

theorem reqViolation_eq_empty (r : Requirement) (c : Nat) :
    reqViolation r c = "" ↔ reqSatisfied r c := by
  unfold reqViolation reqSatisfied
  by_cases h1 : (c : Int) < r.min_qty
  · rw [if_pos h1]
    constructor
    · intro h
      rw [str_app_eq_empty] at h
      exact absurd h.1 (missing_ne_empty _)
    · intro h
      omega
  · rw [if_neg h1]
    by_cases h2 : 0 < r.max_qty ∧ r.max_qty < (c : Int)
    · rw [if_pos h2]
      constructor
      · intro h
        rw [str_empty_append] at h
        exact absurd h (toomany_ne_empty _)
      · intro h
        rcases h with ⟨_, hb⟩
        have := hb h2.1
        omega
    · rw [if_neg h2]
      constructor
      · intro _
        constructor
        · omega
        · intro hpos
          by_contra hgt
          exact h2 ⟨hpos, by omega⟩
      · intro _
        rfl

theorem reqViolation_newline (r : Requirement) (c : Nat)
    (h : reqViolation r c ≠ "") : '\n' ∈ (reqViolation r c).data := by
  unfold reqViolation at h ⊢
  by_cases h1 : (c : Int) < r.min_qty
  · rw [if_pos h1] at h ⊢
    rw [data_app]
    exact List.mem_append_left _ (newline_mem_line _ _)
  · rw [if_neg h1] at h ⊢
    by_cases h2 : 0 < r.max_qty ∧ r.max_qty < (c : Int)
    · rw [if_pos h2] at h ⊢
      rw [data_app]
      exact List.mem_append_right _ (newline_mem_line _ _)
    · rw [if_neg h2] at h
      exact absurd (by rfl) h

theorem fold_shift {α : Type} (f : α → String) (l : List α) (acc : String) :
    l.foldl (fun a r => a ++ f r) acc =
      acc ++ l.foldl (fun a r => a ++ f r) "" := by
  induction l generalizing acc with
  | nil =>
    show acc = acc ++ ""
    rcases acc with ⟨d⟩
    show String.mk d = String.mk (d ++ [])
    rw [List.append_nil]
  | cons x xs ih =>
    rw [List.foldl_cons, List.foldl_cons, ih (acc ++ f x), ih ("" ++ f x),
      str_empty_append, str_append_assoc]

theorem fold_eq_empty {α : Type} (f : α → String) (l : List α) :
    l.foldl (fun a r => a ++ f r) "" = "" ↔ ∀ r ∈ l, f r = "" := by
  induction l with
  | nil => simp [List.foldl]
  | cons x xs ih =>
    show xs.foldl (fun a r => a ++ f r) ("" ++ f x) = "" ↔ _
    rw [fold_shift, str_empty_append, str_app_eq_empty, ih]
    simp [List.mem_cons]

theorem mem_fold_data {α : Type} (f : α → String) (l : List α) (r : α)
    (hr : r ∈ l) (c : Char) (hc : c ∈ (f r).data) :
    c ∈ (l.foldl (fun a x => a ++ f x) "").data := by
  induction l with
  | nil => cases hr
  | cons x xs ih =>
    show c ∈ (xs.foldl (fun a y => a ++ f y) ("" ++ f x)).data
    rw [fold_shift, str_empty_append, data_app]
    rcases List.mem_cons.mp hr with h | h
    · exact List.mem_append_left _ (h ▸ hc)
    · exact List.mem_append_right _ (ih h)

/-- The diagnostic contains the per-requirement violation text of every
listed requirement as a contiguous substring. -/
def strPart (part big : String) : Prop :=
  ∃ pre post, big.data = pre ++ part.data ++ post

theorem fold_part {α : Type} (f : α → String) (l : List α) (r : α)
    (hr : r ∈ l) : strPart (f r) (l.foldl (fun a x => a ++ f x) "") := by
  induction l with
  | nil => cases hr
  | cons x xs ih =>
    show strPart (f r) (xs.foldl (fun a y => a ++ f y) ("" ++ f x))
    rw [fold_shift, str_empty_append]
    rcases List.mem_cons.mp hr with h | h
    · exact ⟨[], (xs.foldl (fun a y => a ++ f y) "").data,
        by rw [data_app, h]; simp⟩
    · rcases ih h with ⟨pre, post, hsplit⟩
      exact ⟨(f x).data ++ pre, post,
        by rw [data_app, hsplit]; simp [List.append_assoc]⟩

theorem coverage_check_iff (reqs : List Requirement) (count : Requirement → Nat) :
    coverage_check reqs count = "All covered" ↔
      ∀ r ∈ reqs, reqSatisfied r (count r) := by
  unfold coverage_check
  by_cases h : reqs.foldl (fun acc r => acc ++ reqViolation r (count r)) "" = ""
  · rw [if_pos h]
    simp only [true_iff]
    intro r hr
    rw [← reqViolation_eq_empty]
    exact (fold_eq_empty (fun r => reqViolation r (count r)) reqs).mp h r hr
  · rw [if_neg h]
    constructor
    · intro hac
      exfalso
      have hex : ¬ ∀ r ∈ reqs, reqViolation r (count r) = "" := by
        intro hall
        exact h ((fold_eq_empty (fun r => reqViolation r (count r)) reqs).mpr hall)
      push_neg at hex
      rcases hex with ⟨r, hr, hne⟩
      have hnl := mem_fold_data (fun r => reqViolation r (count r)) reqs r hr '\n'
        (reqViolation_newline r (count r) hne)
      rw [hac] at hnl
      exact absurd hnl (by decide)
    · intro hall
      exfalso
      apply h
      apply (fold_eq_empty (fun r => reqViolation r (count r)) reqs).mpr
      intro r hr
      rw [reqViolation_eq_empty]
      exact hall r hr

theorem coverage_check_viol (reqs : List Requirement) (count : Requirement → Nat)
    (r : Requirement) (hr : r ∈ reqs) (hv : ¬ reqSatisfied r (count r)) :
    strPart (reqViolation r (count r)) (coverage_check reqs count) := by
  unfold coverage_check
  have hne : reqViolation r (count r) ≠ "" := by
    intro h
    exact hv ((reqViolation_eq_empty r (count r)).mp h)
  have hfold : reqs.foldl (fun acc x => acc ++ reqViolation x (count x)) "" ≠ "" := by
    intro h
    exact hne ((fold_eq_empty (fun x => reqViolation x (count x)) reqs).mp h r hr)
  rw [if_neg hfold]
  exact fold_part (fun x => reqViolation x (count x)) reqs r hr

/-! ### Duration Resolver

`_compute_scheduled_stop`: when `scheduled_start` is set, the stop is the
start plus the template duration, with durations `≤ 0` replaced by 1 hour;
an unset start leaves the stop unset. -/

def compute_scheduled_stop (env : Env) (tid : Nat) (start : Option Int) :
    Option Int :=
  match start with
  | none => none
  | some t =>
    let slot := (templateOf env tid).duration
    let slot2 := if slot > 0 then slot else 1
    some (t + slot2)

/-! ### ORM primitives

The base `models.Model` operations the overrides build on. -/

/-- Recordset lookup by id (`browse`). -/
def getService (db : Db) (sid : Nat) : Option Service :=
  db.services.find? (fun s => s.id == sid)

/-- Ids present in the store. -/
def hasId (db : Db) (i : Nat) : Bool :=
  db.services.any (fun s => s.id == i)

/-- `super().create(values)`: allocate a fresh id, fill the fields from the
values dict (with defaults for the rest), compute the stored
`scheduled_stop`, append the record.  Returns the store and the new id. -/
structure CreateValues where
  service_template_id : Nat
  service_container_id : Nat
  scheduled_start : Option Int
  generation_id : Option String
  parent_service_id : Option Nat
deriving DecidableEq

def new_record (env : Env) (nid : Nat) (v : CreateValues) : Service :=
  { id := nid
    service_template_id := v.service_template_id
    service_container_id := v.service_container_id
    generation_id := v.generation_id
    vehicle_ids := []
    employee_ids := []
    equipment_ids := []
    employee_names := ""
    employee_check := ""
    equipment_check := ""
    vehicle_check := ""
    scheduled_start := v.scheduled_start
    scheduled_stop := compute_scheduled_stop env v.service_template_id v.scheduled_start
    start_real := none
    stop_real := none
    state := "planned"
    parent_service_id := v.parent_service_id
    next_service_id := none }

def base_create (env : Env) (db : Db) (v : CreateValues) : Db × Nat :=
  (⟨db.services ++ [new_record env db.next_id v], db.next_id + 1⟩, db.next_id)

/-- `super().write(values)` on a recordset given by its id list: apply the
field update to every member. -/
def base_write (db : Db) (self : List Nat) (f : Service → Service) : Db :=
  ⟨db.services.map (fun s => if self.contains s.id then f s else s), db.next_id⟩

/-- `super().unlink()`: drop every record of the batch from the store. -/
def base_unlink (db : Db) (self : List Nat) : Db :=
  ⟨db.services.filter (fun s => !(self.contains s.id)), db.next_id⟩

/-- `self.id`: defined only on a singleton recordset, otherwise the ORM
raises "Expected singleton". -/
def recordset_id (self : List Nat) : Except String Nat :=
  match self with
  | [i] => Except.ok i
  | _ => Except.error "Expected singleton"

/-- One call of the external double-booking check
(`service.rule.double_assign`). -/
structure HookCall where
  resource_type : String
  srv_id : Nat
deriving DecidableEq

/-- The overridden `write`: base write, then
`self.double_assign({'resource_type': 'all', 'srv_id': self.id})`.  The
hook's return value is not inspected by the override, so the call is
recorded as an event; `self.id` on a non-singleton recordset raises and
aborts the transaction. -/
def service_write (db : Db) (self : List Nat) (f : Service → Service) :
    Except String (Db × List HookCall) :=
  let db2 := base_write db self f
  match recordset_id self with
  | Except.error e => Except.error e
  | Except.ok i => Except.ok (db2, [⟨"all", i⟩])

/-- Python truthiness of a Char field: unset and the empty string are falsy. -/
def str_falsy : Option String → Bool
  | none => true
  | some s => s == ""

/-- Python truthiness of the `.id` of a Many2one: unset reads as `False`,
and an explicit id 0 would be falsy as well. -/
def ref_falsy : Option Nat → Bool
  | none => true
  | some i => i == 0

/-! ### Chain Generator (the overridden `create`)

After the base create: auto-assign `generation_id` when falsy (the
timestamp string is passed in as `now`; the assignment is a record-field
write and therefore routes through the overridden `write`, producing a hook
call), then, when the template's `next_template_id` is truthy, synthesize
the successor service and store it in `next_service_id` (again via the
overridden `write`).

The source reads
`new_service.service_template_id.service_container_ids[0]` for the
successor's container — the *original* template's container list — although
its own comment says "get first container of the next service template";
the embedding mirrors the code.  Indexing an empty list raises IndexError
and aborts the create. -/

/-- The `generation_id` auto-assignment: when the values left it falsy,
assign the timestamp string through the overridden `write` (one hook call). -/
def gen_step (now : String) (db1 : Db) (new_id : Nat) (gen : Option String) :
    Db × List HookCall :=
  if str_falsy gen then
    (base_write db1 [new_id] (fun s => { s with generation_id := some now }),
      [HookCall.mk "all" new_id])
  else
    (db1, ([] : List HookCall))

/-- The successor-generation step: when the template's `next_template_id` is
truthy, read the new record's stop and generation id, base-create the
successor and store its id in `next_service_id` through the overridden
`write` (one more hook call). -/
def next_step (env : Env) (db2 : Db) (new_id : Nat) (tmpl : ServiceTemplate)
    (log1 : List HookCall) : Except String (Db × Nat × List HookCall) :=
  if ref_falsy tmpl.next_template_id then
    Except.ok (db2, new_id, log1)
  else
    match tmpl.service_container_ids.head? with
    | none => Except.error "IndexError"
    | some next_cont =>
      let next_strt := (getService db2 new_id).bind (fun s => s.scheduled_stop)
      let gen := (getService db2 new_id).bind (fun s => s.generation_id)
      let r := base_create env db2
        ⟨tmpl.next_template_id.getD 0, next_cont, next_strt, gen, some new_id⟩
      let db4 := base_write r.1 [new_id]
        (fun s => { s with next_service_id := some r.2 })
      Except.ok (db4, new_id, log1 ++ [HookCall.mk "all" new_id])

def service_create (env : Env) (now : String) (db : Db) (v : CreateValues) :
    Except String (Db × Nat × List HookCall) :=
  let p := base_create env db v
  let q := gen_step now p.1 p.2 v.generation_id
  next_step env q.1 p.2 (templateOf env v.service_template_id) q.2

/-! ### Chain Unlinker (the overridden `unlink`)

For each service of the deletion batch, when its `next_service_id` is set
and the successor is not part of the batch, recursively unlink the
successor (a singleton batch), then base-unlink the whole batch.  The
source recursion has no bound (a cyclic chain would not terminate), so the
embedding spends fuel on every step and reports exhaustion as an error. -/

/-- `service.next_service_id` read from the store; a dangling or deleted
reference reads as unset. -/
def nextOf (db : Db) (sid : Nat) : Option Nat :=
  (getService db sid).bind (fun s => s.next_service_id)

def unlink_go : Nat → Db → List Nat → List Nat → Except String Db
  | 0, _, _, _ => Except.error "RecursionError"
  | _ + 1, db, self, [] => Except.ok (base_unlink db self)
  | fuel + 1, db, self, i :: rest =>
    match nextOf db i with
    | none => unlink_go fuel db self rest
    | some n =>
      if n ∈ self then
        unlink_go fuel db self rest
      else
        match unlink_go fuel db [n] [n] with
        | Except.error e => Except.error e
        | Except.ok db2 => unlink_go fuel db2 self rest

/-- The overridden `unlink` on a batch of ids. -/
def service_unlink (fuel : Nat) (db : Db) (self : List Nat) :
    Except String Db :=
  unlink_go fuel db self self

/-! ### Well-formedness of a store -/

/-- No two records share an id. -/
def uniqIds (db : Db) : Prop :=
  db.services.Pairwise (fun a b => a.id ≠ b.id)

/-- Stored ids are distinct and below the fresh-id counter. -/
def dbWf (db : Db) : Prop :=
  (∀ s ∈ db.services, s.id < db.next_id) ∧ uniqIds db

instance (db : Db) : Decidable (uniqIds db) := by
  unfold uniqIds
  infer_instance

instance (db : Db) : Decidable (dbWf db) := by
  unfold dbWf uniqIds
  infer_instance

/-- The spec's chain invariant: a set forward pointer is answered by a
back pointer and a shared generation id. -/
def chainInv (db : Db) : Prop :=
  ∀ s ∈ db.services, ∀ n, s.next_service_id = some n →
    ∃ t ∈ db.services, t.id = n ∧ t.parent_service_id = some s.id ∧
      t.generation_id = s.generation_id

/-! ### Store lemmas -/

theorem find?_app {α : Type} {l1 l2 : List α} {p : α → Bool}
    (h : l1.find? p = none) : (l1 ++ l2).find? p = l2.find? p := by
  induction l1 with
  | nil => rfl
  | cons a t ih =>
    cases hpa : p a with
    | true =>
      rw [List.find?_cons_of_pos _ hpa] at h
      cases h
    | false =>
      rw [List.find?_cons_of_neg _ (by simp [hpa])] at h
      rw [List.cons_append, List.find?_cons_of_neg _ (by simp [hpa])]
      exact ih h

theorem find?_none_of_ne {l : List Service} {i : Nat}
    (h : ∀ s ∈ l, s.id ≠ i) : l.find? (fun s => s.id == i) = none := by
  rw [List.find?_eq_none]
  intro a ha
  simp [h a ha]

theorem getService_append_last {l : List Service} {N : Service} {k i : Nat}
    (hold : ∀ s ∈ l, s.id ≠ i) (hN : N.id = i) :
    getService ⟨l ++ [N], k⟩ i = some N := by
  unfold getService
  show (l ++ [N]).find? (fun s => s.id == i) = some N
  rw [find?_app (find?_none_of_ne hold), List.find?_cons_of_pos _ (by simp [hN])]

theorem find?_of_mem_uniq {l : List Service}
    (hu : l.Pairwise (fun a b => a.id ≠ b.id))
    {s : Service} (hs : s ∈ l) {i : Nat} (hid : s.id = i) :
    l.find? (fun x => x.id == i) = some s := by
  induction l with
  | nil => cases hs
  | cons a t ih =>
    rcases List.mem_cons.mp hs with h | h
    · subst h
      rw [List.find?_cons_of_pos _ (by simp [hid])]
    · have hne : a.id ≠ i := by
        have h2 := (List.pairwise_cons.mp hu).1 s h
        omega
      rw [List.find?_cons_of_neg _ (by simp [hne])]
      exact ih (List.pairwise_cons.mp hu).2 h

theorem map_untouched {l : List Service} {i : Nat} {f : Service → Service}
    (hold : ∀ s ∈ l, s.id ≠ i) :
    l.map (fun s => if [i].contains s.id then f s else s) = l := by
  induction l with
  | nil => rfl
  | cons a t ih =>
    rw [List.map_cons, ih (fun s hs => hold s (List.mem_cons_of_mem a hs))]
    have hc : ([i].contains a.id) = false := by
      simp [List.contains]
      exact fun h => (hold a (List.mem_cons_self a t)) h
    rw [hc]
    simp

theorem base_write_last {l : List Service} {N : Service} {k i : Nat}
    {f : Service → Service} (hold : ∀ s ∈ l, s.id ≠ i) (hN : N.id = i) :
    base_write ⟨l ++ [N], k⟩ [i] f = ⟨l ++ [f N], k⟩ := by
  unfold base_write
  show Db.mk ((l ++ [N]).map (fun s => if [i].contains s.id then f s else s)) k = _
  rw [List.map_append, map_untouched hold, List.map_cons]
  have hc : ([i].contains N.id) = true := by simp [List.contains, hN]
  rw [hc]
  rfl

theorem map_one_hit {N : Service} {i : Nat} {f : Service → Service}
    (hN : N.id = i) :
    ([N] : List Service).map (fun s => if [i].contains s.id then f s else s)
      = [f N] := by
  have hc : ([i].contains N.id) = true := by simp [List.contains, hN]
  simp [hc]
  intro h
  exact absurd hN h

theorem base_write_mid {l : List Service} {N M : Service} {k i : Nat}
    {f : Service → Service} (hold : ∀ s ∈ l, s.id ≠ i) (hN : N.id = i)
    (hM : M.id ≠ i) :
    base_write ⟨(l ++ [N]) ++ [M], k⟩ [i] f = ⟨(l ++ [f N]) ++ [M], k⟩ := by
  unfold base_write
  show Db.mk (((l ++ [N]) ++ [M]).map (fun s => if [i].contains s.id then f s else s)) k = _
  rw [List.map_append, List.map_append, map_untouched hold, map_one_hit hN,
    @map_untouched [M] i f (by intro s hs; rw [List.mem_singleton.mp hs]; exact hM)]

/-! ### Canonical results of `create`

`genAdj` is the created record after the `generation_id` auto-assignment
step, `genLog` the hook calls that step produced, `succRec` the synthesized
successor record. -/

def genAdj (env : Env) (now : String) (db : Db) (v : CreateValues) : Service :=
  if str_falsy v.generation_id then
    { new_record env db.next_id v with generation_id := some now }
  else new_record env db.next_id v

def genLog (v : CreateValues) (nid : Nat) : List HookCall :=
  if str_falsy v.generation_id then [HookCall.mk "all" nid] else []

def succValues (env : Env) (now : String) (db : Db) (v : CreateValues)
    (c : Nat) : CreateValues :=
  ⟨(templateOf env v.service_template_id).next_template_id.getD 0, c,
    (genAdj env now db v).scheduled_stop, (genAdj env now db v).generation_id,
    some db.next_id⟩

def succRec (env : Env) (now : String) (db : Db) (v : CreateValues)
    (c : Nat) : Service :=
  new_record env (db.next_id + 1) (succValues env now db v c)

def nextAdj (s : Service) (k : Nat) : Service :=
  { s with next_service_id := some k }

theorem genAdj_id (env : Env) (now : String) (db : Db) (v : CreateValues) :
    (genAdj env now db v).id = db.next_id := by
  unfold genAdj
  split <;> rfl

theorem genAdj_next (env : Env) (now : String) (db : Db) (v : CreateValues) :
    (genAdj env now db v).next_service_id = none := by
  unfold genAdj
  split <;> rfl

theorem gen_step_eq (env : Env) (now : String) (db : Db) (v : CreateValues)
    (hfresh : ∀ s ∈ db.services, s.id ≠ db.next_id) :
    gen_step now ⟨db.services ++ [new_record env db.next_id v], db.next_id + 1⟩
        db.next_id v.generation_id =
      (⟨db.services ++ [genAdj env now db v], db.next_id + 1⟩,
        genLog v db.next_id) := by
  unfold gen_step genAdj genLog
  by_cases hg : str_falsy v.generation_id = true
  · rw [if_pos hg, if_pos hg, if_pos hg, base_write_last hfresh rfl]
  · rw [if_neg hg, if_neg hg, if_neg hg]

theorem next_step_none (env : Env) (db2 : Db) (nid : Nat)
    (tmpl : ServiceTemplate) (log1 : List HookCall)
    (hn : ref_falsy tmpl.next_template_id = true) :
    next_step env db2 nid tmpl log1 = Except.ok (db2, nid, log1) := by
  unfold next_step
  rw [if_pos hn]

theorem next_step_some (env : Env) (now : String) (db : Db) (v : CreateValues)
    (c : Nat) (log1 : List HookCall)
    (hfresh : ∀ s ∈ db.services, s.id ≠ db.next_id)
    (hn : ref_falsy (templateOf env v.service_template_id).next_template_id = false)
    (hc : (templateOf env v.service_template_id).service_container_ids.head? = some c) :
    next_step env ⟨db.services ++ [genAdj env now db v], db.next_id + 1⟩
        db.next_id (templateOf env v.service_template_id) log1 =
      Except.ok (⟨(db.services ++ [nextAdj (genAdj env now db v) (db.next_id + 1)])
          ++ [succRec env now db v c], db.next_id + 2⟩,
        db.next_id, log1 ++ [HookCall.mk "all" db.next_id]) := by
  unfold next_step
  rw [if_neg (by rw [hn]; simp)]
  simp only [hc]
  rw [getService_append_last hfresh (genAdj_id env now db v)]
  show Except.ok
      (base_write (base_create env ⟨db.services ++ [genAdj env now db v],
          db.next_id + 1⟩ _).1 [db.next_id] _, db.next_id, _) = _
  unfold base_create
  rw [show (⟨db.services ++ [genAdj env now db v], db.next_id + 1⟩ : Db).services
      = db.services ++ [genAdj env now db v] from rfl]
  show Except.ok (base_write ⟨(db.services ++ [genAdj env now db v]) ++
      [new_record env (db.next_id + 1) (succValues env now db v c)],
      db.next_id + 1 + 1⟩ [db.next_id]
      (fun s => { s with next_service_id := some (db.next_id + 1) }),
    db.next_id, log1 ++ [HookCall.mk "all" db.next_id]) = _
  rw [base_write_mid hfresh (genAdj_id env now db v)
    (show (new_record env (db.next_id + 1) (succValues env now db v c)).id ≠ db.next_id by
      show db.next_id + 1 ≠ db.next_id
      omega)]
  rfl

theorem create_eq_no_next (env : Env) (now : String) (db : Db) (v : CreateValues)
    (hfresh : ∀ s ∈ db.services, s.id ≠ db.next_id)
    (hn : ref_falsy (templateOf env v.service_template_id).next_template_id = true) :
    service_create env now db v =
      Except.ok (⟨db.services ++ [genAdj env now db v], db.next_id + 1⟩,
        db.next_id, genLog v db.next_id) := by
  show next_step env
      (gen_step now ⟨db.services ++ [new_record env db.next_id v], db.next_id + 1⟩
        db.next_id v.generation_id).1 db.next_id
      (templateOf env v.service_template_id)
      (gen_step now ⟨db.services ++ [new_record env db.next_id v], db.next_id + 1⟩
        db.next_id v.generation_id).2 = _
  rw [gen_step_eq env now db v hfresh]
  exact next_step_none env _ db.next_id _ _ hn

theorem create_eq_next (env : Env) (now : String) (db : Db) (v : CreateValues)
    (c : Nat) (hfresh : ∀ s ∈ db.services, s.id ≠ db.next_id)
    (hn : ref_falsy (templateOf env v.service_template_id).next_template_id = false)
    (hc : (templateOf env v.service_template_id).service_container_ids.head? = some c) :
    service_create env now db v =
      Except.ok (⟨(db.services ++ [nextAdj (genAdj env now db v) (db.next_id + 1)])
          ++ [succRec env now db v c], db.next_id + 2⟩,
        db.next_id, genLog v db.next_id ++ [HookCall.mk "all" db.next_id]) := by
  show next_step env
      (gen_step now ⟨db.services ++ [new_record env db.next_id v], db.next_id + 1⟩
        db.next_id v.generation_id).1 db.next_id
      (templateOf env v.service_template_id)
      (gen_step now ⟨db.services ++ [new_record env db.next_id v], db.next_id + 1⟩
        db.next_id v.generation_id).2 = _
  rw [gen_step_eq env now db v hfresh]
  exact next_step_some env now db v c _ hfresh hn hc

theorem create_eq_no_cont (env : Env) (now : String) (db : Db) (v : CreateValues)
    (hn : ref_falsy (templateOf env v.service_template_id).next_template_id = false)
    (hc : (templateOf env v.service_template_id).service_container_ids.head? = none) :
    service_create env now db v = Except.error "IndexError" := by
  show next_step env
      (gen_step now ⟨db.services ++ [new_record env db.next_id v], db.next_id + 1⟩
        db.next_id v.generation_id).1 db.next_id
      (templateOf env v.service_template_id)
      (gen_step now ⟨db.services ++ [new_record env db.next_id v], db.next_id + 1⟩
        db.next_id v.generation_id).2 = _
  unfold next_step
  rw [if_neg (by rw [hn]; simp)]
  simp only [hc]

/-! ### Claim C1 — coverage diagnostics -/

theorem strPart_trans {a b c : String} (h1 : strPart a b) (h2 : strPart b c) :
    strPart a c := by
  rcases h1 with ⟨p1, q1, hb⟩
  rcases h2 with ⟨p2, q2, hcc⟩
  exact ⟨p2 ++ p1, q1 ++ q2, by rw [hcc, hb]; simp [List.append_assoc]⟩

theorem strPart_left (a b : String) : strPart a (a ++ b) :=
  ⟨[], b.data, by rw [data_app]; simp⟩

theorem strPart_right (a b : String) : strPart b (a ++ b) :=
  ⟨a.data, [], by rw [data_app]; simp⟩

/-- What the spec asserts of one diagnostic string: the sentinel appears
exactly when every requirement is satisfied, every shortfall contributes its
`Missing` line and every excess its `Too many` line. -/
def diagSpec (reqs : List Requirement) (count : Requirement → Nat)
    (diag : String) : Prop :=
  (diag = "All covered" ↔ ∀ r ∈ reqs, reqSatisfied r (count r)) ∧
  (∀ r ∈ reqs,
    ((count r : Int) < r.min_qty →
      strPart ("Missing " ++ r.category_name ++ "\n") diag) ∧
    (0 < r.max_qty ∧ r.max_qty < (count r : Int) →
      strPart ("Too many " ++ r.category_name ++ "\n") diag))

theorem coverage_check_diagSpec (reqs : List Requirement)
    (count : Requirement → Nat) : diagSpec reqs count (coverage_check reqs count) := by
  refine ⟨coverage_check_iff reqs count, ?_⟩
  intro r hr
  constructor
  · intro hlt
    have hv : ¬ reqSatisfied r (count r) := by
      unfold reqSatisfied
      omega
    apply strPart_trans _ (coverage_check_viol reqs count r hr hv)
    unfold reqViolation
    rw [if_pos hlt]
    exact strPart_left _ _
  · intro hgt
    have hv : ¬ reqSatisfied r (count r) := by
      unfold reqSatisfied
      intro hs
      have := hs.2 hgt.1
      have := hgt.2
      omega
    apply strPart_trans _ (coverage_check_viol reqs count r hr hv)
    unfold reqViolation
    rw [if_pos hgt]
    exact strPart_right _ _

/-- C1: for a service validated on its own, each of the three persisted
diagnostics is `"All covered"` iff every requirement of the corresponding
template list is met by the corresponding assignment set (count at least
`min_qty`, and at most `max_qty` when `max_qty > 0`); otherwise the
diagnostic carries a `"Missing <name>"` line for every under-covered and a
`"Too many <name>"` line for every over-covered requirement. -/
theorem C1_coverage_diagnostics (env : Env) (s : Service) :
    diagSpec (templateOf env s.service_template_id).exp_skill_ids
      (fun r => skill_count env s r) (check_skill_request env s).employee_check ∧
    diagSpec (templateOf env s.service_template_id).exp_eqp_cat_ids
      (fun r => equipment_count env s r) (check_equipment_request env s).equipment_check ∧
    diagSpec (templateOf env s.service_template_id).exp_vehicle_ids
      (fun r => vehicle_count env s r) (check_vehicle_request env s).vehicle_check :=
  ⟨coverage_check_diagSpec _ _, coverage_check_diagSpec _ _,
    coverage_check_diagSpec _ _⟩

def envC1 : Env :=
  ⟨[⟨1, 2, [⟨3, "driver", 1, 0⟩], [], [], [7], none⟩], [(4, 3)], [], []⟩

def svcC1 : Service :=
  ⟨1, 1, 7, some "g", [], [4], [], "", "", "", "", some 10, some 12,
    none, none, "planned", none, none⟩

theorem C1_coverage_diagnostics_witness :
    (check_skill_request envC1 svcC1).employee_check = "All covered" :=
  (C1_coverage_diagnostics envC1 svcC1).1.1.mpr (by decide)

/-! ### Claim C3 — duration floor -/

/-- C3: with the start set, the derived stop is start plus
`max(duration, 1)` hours; in particular a non-positive template duration
yields exactly start plus one hour, and the stop never precedes start plus
one hour. -/
theorem C3_duration_floor (env : Env) (tid : Nat) (t : Int) :
    compute_scheduled_stop env tid (some t) =
        some (t + max (templateOf env tid).duration 1) ∧
    ((templateOf env tid).duration ≤ 0 →
        compute_scheduled_stop env tid (some t) = some (t + 1)) ∧
    (∀ u, compute_scheduled_stop env tid (some t) = some u → t + 1 ≤ u) := by
  have hred : compute_scheduled_stop env tid (some t) =
      some (t + if (templateOf env tid).duration > 0 then
        (templateOf env tid).duration else 1) := rfl
  rw [hred]
  by_cases h : (templateOf env tid).duration > 0
  · rw [if_pos h]
    refine ⟨?_, ?_, ?_⟩
    · have : max (templateOf env tid).duration 1 = (templateOf env tid).duration := by
        omega
      rw [this]
    · intro h2
      omega
    · intro u hu
      have := Option.some.inj hu
      omega
  · rw [if_neg h]
    refine ⟨?_, ?_, ?_⟩
    · have : max (templateOf env tid).duration 1 = 1 := by omega
      rw [this]
    · intro _
      rfl
    · intro u hu
      have := Option.some.inj hu
      omega

def envC3 : Env := ⟨[⟨1, 0, [], [], [], [], none⟩], [], [], []⟩

theorem C3_duration_floor_witness :
    compute_scheduled_stop envC3 1 (some 8) = some 9 :=
  (C3_duration_floor envC3 1 8).2.1 (by decide)

/-! ### Claim C9 — per-kind frame -/

/-- C9: recomputing one kind's diagnostic writes only that kind's check
field; the other two check fields are untouched, so the three diagnostics
are maintained independently. -/
theorem C9_check_frame (env : Env) (s : Service) :
    (check_skill_request env s).equipment_check = s.equipment_check ∧
    (check_skill_request env s).vehicle_check = s.vehicle_check ∧
    (check_equipment_request env s).employee_check = s.employee_check ∧
    (check_equipment_request env s).vehicle_check = s.vehicle_check ∧
    (check_vehicle_request env s).employee_check = s.employee_check ∧
    (check_vehicle_request env s).equipment_check = s.equipment_check :=
  ⟨rfl, rfl, rfl, rfl, rfl, rfl⟩

/-! ### Claim C10 — multi-record write -/

/-- C10: the post-write hook reads `self.id`, defined only on singleton
recordsets; a write over two or more services fails with the singleton
error instead of invoking the check once per service. -/
theorem C10_multi_write_error (db : Db) (self : List Nat)
    (f : Service → Service) (h : 2 ≤ self.length) :
    service_write db self f = Except.error "Expected singleton" := by
  rcases self with _ | ⟨a, rest⟩
  · simp at h
  · rcases rest with _ | ⟨b, rest2⟩
    · simp at h
    · rfl

theorem C10_multi_write_error_witness :
    service_write ⟨[], 0⟩ [1, 2] (fun s => s) = Except.error "Expected singleton" :=
  C10_multi_write_error ⟨[], 0⟩ [1, 2] (fun s => s) (by decide)

/-! ### Claim C2 — successor container selection

The source reads the container from the created service's own template
(`new_service.service_template_id.service_container_ids[0]`), although its
comment and the spec require the successor template's list. -/

def envC2 : Env :=
  ⟨[⟨1, 2, [], [], [], [7], some 2⟩, ⟨2, 3, [], [], [], [9], none⟩],
    [], [], []⟩

def valsC2 : CreateValues := ⟨1, 7, some 0, some "g", none⟩

/-- C2: creating a service from template 1 (containers `[7]`, successor
template 2) synthesizes a successor whose container is `7`, the head of the
ORIGINAL template's list — not `9`, the head of the successor template's
list as the claim requires. -/
theorem C2_successor_container_bug :
    ((service_create envC2 "now" ⟨[], 1⟩ valsC2).toOption.bind
        (fun r => (getService r.1 2).map (fun s => s.service_container_id)))
      = some 7 ∧
    (templateOf envC2 2).service_container_ids = [9] := by decide

/-! ### Claim C6 — zero-container successor template -/

def envC6 : Env :=
  ⟨[⟨1, 2, [], [], [], [7], some 2⟩, ⟨2, 3, [], [], [], [], none⟩],
    [], [], []⟩

def valsC6 : CreateValues := ⟨1, 7, some 0, some "g", none⟩

/-- C6: with a successor template declaring zero allowed containers (and the
original template declaring one), creation succeeds and synthesizes the
successor anyway — no error propagates, contrary to the claim; the code
never reads the successor template's container list. -/
theorem C6_zero_container_no_error :
    (service_create envC6 "now" ⟨[], 1⟩ valsC6).toOption.isSome = true ∧
    (templateOf envC6 2).service_container_ids = [] ∧
    ((service_create envC6 "now" ⟨[], 1⟩ valsC6).toOption.bind
        (fun r => (getService r.1 2).map (fun s => s.service_template_id)))
      = some 2 := by decide

/-! ### Claim C7 — conflict hook per mutation -/

def envC7 : Env := ⟨[⟨1, 2, [], [], [], [7], none⟩], [], [], []⟩

def valsC7 : CreateValues := ⟨1, 7, some 0, some "g", none⟩

/-- C7 counterexample: a creation that supplies `generation_id` and whose
template names no successor performs no field write after the base create,
so the double-booking check is invoked zero times — not exactly once as the
claim states for every mutation including creation. -/
theorem C7_hook_once_counterexample :
    ¬ ((service_create envC7 "now" ⟨[], 1⟩ valsC7).toOption.map
        (fun r => r.2.2.length) = some 1) := by decide

/-- C7 amended: every `write` of a single service performs the base write
and then invokes the double-booking check exactly once, synchronously, with
resource scope `"all"` and that service's id, the write's result not
depending on the hook's outcome; creation invokes the hook only through the
field writes it performs (generation-id and next-pointer assignment), each
such call again with scope `"all"` and the created service's id. -/
theorem C7_write_hook_contract :
    (∀ (db : Db) (i : Nat) (f : Service → Service),
      service_write db [i] f =
        Except.ok (base_write db [i] f, [HookCall.mk "all" i])) ∧
    (∀ (env : Env) (now : String) (db : Db) (v : CreateValues)
        (out : Db × Nat × List HookCall)
        (hfresh : ∀ s ∈ db.services, s.id ≠ db.next_id),
      service_create env now db v = Except.ok out →
      ∀ c ∈ out.2.2, c.resource_type = "all" ∧ c.srv_id = out.2.1) := by
  constructor
  · intro db i f
    rfl
  · intro env now db v out hfresh h
    by_cases hn : ref_falsy (templateOf env v.service_template_id).next_template_id = true
    · rw [create_eq_no_next env now db v hfresh hn] at h
      have hout := Except.ok.inj h
      intro c hc
      rw [← hout] at hc
      have hlog : c ∈ genLog v db.next_id := hc
      unfold genLog at hlog
      by_cases hg : str_falsy v.generation_id = true
      · rw [if_pos hg] at hlog
        rw [List.mem_singleton.mp hlog, ← hout]
        exact ⟨rfl, rfl⟩
      · rw [if_neg hg] at hlog
        cases hlog
    · have hn' : ref_falsy (templateOf env v.service_template_id).next_template_id = false := by
        revert hn
        cases ref_falsy (templateOf env v.service_template_id).next_template_id <;> simp
      cases hcont : (templateOf env v.service_template_id).service_container_ids.head? with
      | none =>
        rw [create_eq_no_cont env now db v hn' hcont] at h
        cases h
      | some cc =>
        rw [create_eq_next env now db v cc hfresh hn' hcont] at h
        have hout := Except.ok.inj h
        intro c hc
        rw [← hout] at hc
        have hlog : c ∈ genLog v db.next_id ++ [HookCall.mk "all" db.next_id] := hc
        rcases List.mem_append.mp hlog with hl | hl
        · unfold genLog at hl
          by_cases hg : str_falsy v.generation_id = true
          · rw [if_pos hg] at hl
            rw [List.mem_singleton.mp hl, ← hout]
            exact ⟨rfl, rfl⟩
          · rw [if_neg hg] at hl
            cases hl
        · rw [List.mem_singleton.mp hl, ← hout]
          exact ⟨rfl, rfl⟩

theorem C7_write_hook_contract_witness :
    service_write ⟨[], 0⟩ [5] (fun s => s) =
      Except.ok (base_write ⟨[], 0⟩ [5] (fun s => s), [HookCall.mk "all" 5]) :=
  C7_write_hook_contract.1 ⟨[], 0⟩ 5 (fun s => s)

/-! ### Claims C4 and C8 — chain generation -/

theorem ref_falsy_some_ne {nt : Nat} (h : nt ≠ 0) : ref_falsy (some nt) = false := by
  unfold ref_falsy
  simp [h]

theorem getService_mid {l : List Service} {N M : Service} {k i : Nat}
    (hold : ∀ s ∈ l, s.id ≠ i) (hN : N.id = i) :
    getService ⟨(l ++ [N]) ++ [M], k⟩ i = some N := by
  unfold getService
  show ((l ++ [N]) ++ [M]).find? (fun s => s.id == i) = some N
  rw [List.append_assoc, find?_app (find?_none_of_ne hold),
    List.singleton_append, List.find?_cons_of_pos _ (by simp [hN])]

theorem getService_mid_last {l : List Service} {N M : Service} {k i : Nat}
    (hold : ∀ s ∈ l, s.id ≠ i) (hN : N.id ≠ i) (hM : M.id = i) :
    getService ⟨(l ++ [N]) ++ [M], k⟩ i = some M := by
  unfold getService
  show ((l ++ [N]) ++ [M]).find? (fun s => s.id == i) = some M
  rw [List.append_assoc, find?_app (find?_none_of_ne hold),
    List.singleton_append, List.find?_cons_of_neg _ (by simp [hN]),
    List.find?_cons_of_pos _ (by simp [hM])]

theorem nextAdj_genAdj_id (env : Env) (now : String) (db : Db)
    (v : CreateValues) (k : Nat) :
    (nextAdj (genAdj env now db v) k).id = db.next_id := by
  show (genAdj env now db v).id = db.next_id
  exact genAdj_id env now db v

/-- C4: after a creation whose template names a (truthy) successor template,
the created record's `next_service_id` points at a stored record whose
`parent_service_id` is the created record's id, whose `generation_id` it
shares, whose `scheduled_start` is the created record's `scheduled_stop` and
whose template is the successor template; and the chain invariant — every
set forward pointer is answered by the back pointer and a shared generation
id — is preserved by creation. -/
theorem C4_chain_linkage :
    (∀ (env : Env) (now : String) (db : Db) (v : CreateValues) (db' : Db)
        (nid : Nat) (log : List HookCall) (nt : Nat),
      dbWf db →
      service_create env now db v = Except.ok (db', nid, log) →
      (templateOf env v.service_template_id).next_template_id = some nt →
      nt ≠ 0 →
      ∃ m, getService db' nid = some m ∧
        ∃ k, m.next_service_id = some k ∧
          ∃ sc, getService db' k = some sc ∧
            sc.parent_service_id = some nid ∧
            sc.generation_id = m.generation_id ∧
            sc.scheduled_start = m.scheduled_stop ∧
            sc.service_template_id = nt) ∧
    (∀ (env : Env) (now : String) (db : Db) (v : CreateValues) (db' : Db)
        (nid : Nat) (log : List HookCall),
      dbWf db → chainInv db →
      service_create env now db v = Except.ok (db', nid, log) →
      chainInv db') := by
  constructor
  · intro env now db v db' nid log nt hwf h hnopt hnt0
    have hfresh : ∀ s ∈ db.services, s.id ≠ db.next_id := by
      intro s hs
      have := hwf.1 s hs
      omega
    have hn' : ref_falsy (templateOf env v.service_template_id).next_template_id
        = false := by
      rw [hnopt]
      exact ref_falsy_some_ne hnt0
    cases hcont : (templateOf env v.service_template_id).service_container_ids.head? with
    | none =>
      rw [create_eq_no_cont env now db v hn' hcont] at h
      cases h
    | some cc =>
      rw [create_eq_next env now db v cc hfresh hn' hcont] at h
      have hout := Except.ok.inj h
      have hdb : db' = ⟨(db.services ++
          [nextAdj (genAdj env now db v) (db.next_id + 1)])
          ++ [succRec env now db v cc], db.next_id + 2⟩ :=
        (congrArg Prod.fst hout).symm
      have hnid : nid = db.next_id := (congrArg (fun p => p.2.1) hout).symm
      subst hdb
      subst hnid
      refine ⟨nextAdj (genAdj env now db v) (db.next_id + 1), ?_,
        db.next_id + 1, rfl, succRec env now db v cc, ?_, rfl, rfl, rfl, ?_⟩
      · exact getService_mid hfresh (nextAdj_genAdj_id env now db v _)
      · refine getService_mid_last ?_ ?_ rfl
        · intro s hs
          have := hwf.1 s hs
          omega
        · rw [nextAdj_genAdj_id env now db v]
          omega
      · show (templateOf env v.service_template_id).next_template_id.getD 0 = nt
        rw [hnopt]
        rfl
  · intro env now db v db' nid log hwf hinv h
    have hfresh : ∀ s ∈ db.services, s.id ≠ db.next_id := by
      intro s hs
      have := hwf.1 s hs
      omega
    by_cases hn : ref_falsy (templateOf env v.service_template_id).next_template_id = true
    · rw [create_eq_no_next env now db v hfresh hn] at h
      have hout := Except.ok.inj h
      have hdb : db' = ⟨db.services ++ [genAdj env now db v], db.next_id + 1⟩ :=
        (congrArg Prod.fst hout).symm
      subst hdb
      intro s hs n hsn
      rcases List.mem_append.mp hs with hsold | hsnew
      · obtain ⟨t, ht, hts⟩ := hinv s hsold n hsn
        exact ⟨t, List.mem_append_left _ ht, hts⟩
      · rw [List.mem_singleton.mp hsnew, genAdj_next] at hsn
        cases hsn
    · have hn' : ref_falsy (templateOf env v.service_template_id).next_template_id
          = false := by
        revert hn
        cases ref_falsy (templateOf env v.service_template_id).next_template_id <;> simp
      cases hcont : (templateOf env v.service_template_id).service_container_ids.head? with
      | none =>
        rw [create_eq_no_cont env now db v hn' hcont] at h
        cases h
      | some cc =>
        rw [create_eq_next env now db v cc hfresh hn' hcont] at h
        have hout := Except.ok.inj h
        have hdb : db' = ⟨(db.services ++
            [nextAdj (genAdj env now db v) (db.next_id + 1)])
            ++ [succRec env now db v cc], db.next_id + 2⟩ :=
          (congrArg Prod.fst hout).symm
        subst hdb
        intro s hs n hsn
        rcases List.mem_append.mp hs with hs1 | hssc
        · rcases List.mem_append.mp hs1 with hsold | hsm
          · obtain ⟨t, ht, hts⟩ := hinv s hsold n hsn
            exact ⟨t, List.mem_append_left _ (List.mem_append_left _ ht), hts⟩
          · have hsm' := List.mem_singleton.mp hsm
            have hne : n = db.next_id + 1 := by
              rw [hsm'] at hsn
              exact (Option.some.inj hsn).symm
            refine ⟨succRec env now db v cc,
              List.mem_append_right _ (List.mem_singleton.mpr rfl), ?_, ?_, ?_⟩
            · rw [hne]
              rfl
            · show some db.next_id = some s.id
              rw [hsm', nextAdj_genAdj_id env now db v]
            · rw [hsm']
              rfl
        · rw [List.mem_singleton.mp hssc] at hsn
          cases hsn

def envC4 : Env :=
  ⟨[⟨1, 2, [], [], [], [7], some 2⟩, ⟨2, 3, [], [], [], [9], none⟩],
    [], [], []⟩

def valsC4 : CreateValues := ⟨1, 7, some 0, none, none⟩

def outC4 : Db × Nat × List HookCall :=
  ((service_create envC4 "g" ⟨[], 1⟩ valsC4).toOption).getD (⟨[], 0⟩, 0, [])

theorem C4_chain_linkage_witness :
    ∃ m, getService outC4.1 outC4.2.1 = some m ∧
      ∃ k, m.next_service_id = some k ∧
        ∃ sc, getService outC4.1 k = some sc ∧
          sc.parent_service_id = some outC4.2.1 ∧
          sc.generation_id = m.generation_id ∧
          sc.scheduled_start = m.scheduled_stop ∧
          sc.service_template_id = 2 :=
  C4_chain_linkage.1 envC4 "g" ⟨[], 1⟩ valsC4 outC4.1 outC4.2.1 outC4.2.2 2
    (by decide) (by rfl) (by decide) (by decide)

/-- C8: a single creation call adds at most two records (the service and at
most one successor), and every added record other than the created one is a
successor carrying the created id as parent and an UNSET forward pointer —
the synthesized successor's creation goes through the base `create` and
never triggers chain generation itself, whatever its own template says. -/
theorem C8_single_hop (env : Env) (now : String) (db : Db) (v : CreateValues)
    (db' : Db) (nid : Nat) (log : List HookCall) (hwf : dbWf db)
    (h : service_create env now db v = Except.ok (db', nid, log)) :
    db'.services.length ≤ db.services.length + 2 ∧
    ∀ s ∈ db'.services, s ∉ db.services →
      s.id = nid ∨ (s.parent_service_id = some nid ∧ s.next_service_id = none) := by
  have hfresh : ∀ s ∈ db.services, s.id ≠ db.next_id := by
    intro s hs
    have := hwf.1 s hs
    omega
  by_cases hn : ref_falsy (templateOf env v.service_template_id).next_template_id = true
  · rw [create_eq_no_next env now db v hfresh hn] at h
    have hout := Except.ok.inj h
    have hdb : db' = ⟨db.services ++ [genAdj env now db v], db.next_id + 1⟩ :=
      (congrArg Prod.fst hout).symm
    have hnid : nid = db.next_id := (congrArg (fun p => p.2.1) hout).symm
    subst hdb
    subst hnid
    constructor
    · show (db.services ++ [genAdj env now db v]).length ≤ _
      rw [List.length_append]
      simp
    · intro s hs hnot
      rcases List.mem_append.mp hs with hsold | hsnew
      · exact absurd hsold hnot
      · left
        rw [List.mem_singleton.mp hsnew]
        exact genAdj_id env now db v
  · have hn' : ref_falsy (templateOf env v.service_template_id).next_template_id
        = false := by
      revert hn
      cases ref_falsy (templateOf env v.service_template_id).next_template_id <;> simp
    cases hcont : (templateOf env v.service_template_id).service_container_ids.head? with
    | none =>
      rw [create_eq_no_cont env now db v hn' hcont] at h
      cases h
    | some cc =>
      rw [create_eq_next env now db v cc hfresh hn' hcont] at h
      have hout := Except.ok.inj h
      have hdb : db' = ⟨(db.services ++
          [nextAdj (genAdj env now db v) (db.next_id + 1)])
          ++ [succRec env now db v cc], db.next_id + 2⟩ :=
        (congrArg Prod.fst hout).symm
      have hnid : nid = db.next_id := (congrArg (fun p => p.2.1) hout).symm
      subst hdb
      subst hnid
      constructor
      · show ((db.services ++ _) ++ _).length ≤ _
        rw [List.length_append, List.length_append]
        simp
      · intro s hs hnot
        rcases List.mem_append.mp hs with hs1 | hssc
        · rcases List.mem_append.mp hs1 with hsold | hsm
          · exact absurd hsold hnot
          · left
            rw [List.mem_singleton.mp hsm]
            exact nextAdj_genAdj_id env now db v _
        · right
          rw [List.mem_singleton.mp hssc]
          exact ⟨rfl, rfl⟩

def envC8 : Env :=
  ⟨[⟨1, 2, [], [], [], [7], some 2⟩, ⟨2, 3, [], [], [], [9], some 1⟩],
    [], [], []⟩

def valsC8 : CreateValues := ⟨1, 7, some 0, some "g", none⟩

def outC8 : Db × Nat × List HookCall :=
  ((service_create envC8 "g" ⟨[], 1⟩ valsC8).toOption).getD (⟨[], 0⟩, 0, [])

theorem C8_single_hop_witness :
    outC8.1.services.length ≤ (⟨[], 1⟩ : Db).services.length + 2 :=
  (C8_single_hop envC8 "g" ⟨[], 1⟩ valsC8 outC8.1 outC8.2.1 outC8.2.2
    (by decide) (by rfl)).1

/-! ### Claim C5 — cascading delete -/

theorem unlink_go_zero (db : Db) (self rest : List Nat) :
    unlink_go 0 db self rest = Except.error "RecursionError" := rfl

theorem unlink_go_nil (f : Nat) (db : Db) (self : List Nat) :
    unlink_go (f + 1) db self [] = Except.ok (base_unlink db self) := rfl

theorem unlink_go_cons_none {db : Db} {i : Nat} (f : Nat) (self rest : List Nat)
    (hn : nextOf db i = none) :
    unlink_go (f + 1) db self (i :: rest) = unlink_go f db self rest := by
  simp only [unlink_go, hn]

theorem unlink_go_cons_mem {db : Db} {i n : Nat} (f : Nat) (self rest : List Nat)
    (hn : nextOf db i = some n) (hmem : n ∈ self) :
    unlink_go (f + 1) db self (i :: rest) = unlink_go f db self rest := by
  simp only [unlink_go, hn, if_pos hmem]

theorem unlink_go_cons_rec {db : Db} {i n : Nat} (f : Nat) (self rest : List Nat)
    (hn : nextOf db i = some n) (hmem : n ∉ self) :
    unlink_go (f + 1) db self (i :: rest) =
      match unlink_go f db [n] [n] with
      | Except.error e => Except.error e
      | Except.ok db2 => unlink_go f db2 self rest := by
  simp only [unlink_go, hn, if_neg hmem]

theorem unlink_go_sublist : ∀ (f : Nat) (db : Db) (self rest : List Nat) (db' : Db),
    unlink_go f db self rest = Except.ok db' →
    db'.services.Sublist db.services := by
  intro f
  induction f with
  | zero =>
    intro db self rest db' h
    rw [unlink_go_zero] at h
    cases h
  | succ f ih =>
    intro db self rest db' h
    cases rest with
    | nil =>
      rw [unlink_go_nil] at h
      rw [← Except.ok.inj h]
      exact List.filter_sublist _
    | cons i rest2 =>
      cases hn : nextOf db i with
      | none =>
        rw [unlink_go_cons_none f self rest2 hn] at h
        exact ih db self rest2 db' h
      | some n =>
        by_cases hmem : n ∈ self
        · rw [unlink_go_cons_mem f self rest2 hn hmem] at h
          exact ih db self rest2 db' h
        · rw [unlink_go_cons_rec f self rest2 hn hmem] at h
          cases hrec : unlink_go f db [n] [n] with
          | error e =>
            simp only [hrec] at h
            cases h
          | ok d2 =>
            simp only [hrec] at h
            exact (ih d2 self rest2 db' h).trans (ih db [n] [n] d2 hrec)

theorem unlink_go_removes : ∀ (f : Nat) (db : Db) (self rest : List Nat) (db' : Db),
    unlink_go f db self rest = Except.ok db' →
    ∀ s ∈ db'.services, s.id ∉ self := by
  intro f
  induction f with
  | zero =>
    intro db self rest db' h
    rw [unlink_go_zero] at h
    cases h
  | succ f ih =>
    intro db self rest db' h
    cases rest with
    | nil =>
      rw [unlink_go_nil] at h
      intro s hs
      rw [← Except.ok.inj h] at hs
      have hmf := List.mem_filter.mp hs
      simpa using hmf.2
    | cons i rest2 =>
      cases hn : nextOf db i with
      | none =>
        rw [unlink_go_cons_none f self rest2 hn] at h
        exact ih db self rest2 db' h
      | some n =>
        by_cases hmem : n ∈ self
        · rw [unlink_go_cons_mem f self rest2 hn hmem] at h
          exact ih db self rest2 db' h
        · rw [unlink_go_cons_rec f self rest2 hn hmem] at h
          cases hrec : unlink_go f db [n] [n] with
          | error e =>
            simp only [hrec] at h
            cases h
          | ok d2 =>
            simp only [hrec] at h
            exact ih d2 self rest2 db' h

theorem hasId_false_iff (db : Db) (j : Nat) :
    hasId db j = false ↔ ∀ s ∈ db.services, s.id ≠ j := by
  unfold hasId
  constructor
  · intro h s hs hj
    have hany : db.services.any (fun s => s.id == j) = true :=
      List.any_eq_true.mpr ⟨s, hs, by simp [hj]⟩
    rw [h] at hany
    cases hany
  · intro h
    cases hany : db.services.any (fun s => s.id == j) with
    | false => rfl
    | true =>
      obtain ⟨s, hs, hsj⟩ := List.any_eq_true.mp hany
      exact absurd (by simpa using hsj) (h s hs)

theorem hasId_mono {db db' : Db} (hsub : db'.services.Sublist db.services)
    {j : Nat} (h : hasId db j = false) : hasId db' j = false := by
  rw [hasId_false_iff] at h ⊢
  intro s hs
  exact h s (hsub.subset hs)

theorem uniq_mem_eq {db : Db} (hu : uniqIds db) {s t : Service}
    (hs : s ∈ db.services) (ht : t ∈ db.services) (hid : t.id = s.id) :
    t = s := by
  by_contra hne
  exact List.Pairwise.forall (by intro x y hxy; exact hxy.symm) hu ht hs hne hid

theorem not_hasId_removed {db db' : Db} (hu : uniqIds db)
    (hsub : db'.services.Sublist db.services) {s : Service}
    (hs : s ∈ db.services) (hs' : s ∉ db'.services) :
    hasId db' s.id = false := by
  rw [hasId_false_iff]
  intro t ht hid
  exact hs' ((uniq_mem_eq hu hs (hsub.subset ht) hid) ▸ ht)

theorem nextOf_eq {db : Db} (hu : uniqIds db) {s : Service}
    (hs : s ∈ db.services) {i : Nat} (hid : s.id = i) :
    nextOf db i = s.next_service_id := by
  unfold nextOf getService
  rw [find?_of_mem_uniq hu hs hid]
  rfl

theorem unlink_go_cascade :
    ∀ (f : Nat) (db : Db) (self rest : List Nat) (db' : Db),
    rest ⊆ self → uniqIds db → unlink_go f db self rest = Except.ok db' →
    ((∀ s ∈ db.services, s ∉ db'.services → s.id ∉ self →
        ∀ n, s.next_service_id = some n → hasId db' n = false) ∧
     (∀ i ∈ rest, ∀ s ∈ db.services, s.id = i →
        ∀ n, s.next_service_id = some n → n ∉ self → hasId db' n = false)) := by
  intro f
  induction f with
  | zero =>
    intro db self rest db' _ _ h
    rw [unlink_go_zero] at h
    cases h
  | succ f ih =>
    intro db self rest db' hrs hu h
    cases rest with
    | nil =>
      rw [unlink_go_nil] at h
      have hdb : base_unlink db self = db' := Except.ok.inj h
      constructor
      · intro s hs hs' hself n _
        exfalso
        apply hs'
        rw [← hdb]
        show s ∈ db.services.filter _
        rw [List.mem_filter]
        exact ⟨hs, by simpa using hself⟩
      · intro i hi
        cases hi
    | cons i rest2 =>
      have hrs2 : rest2 ⊆ self := fun x hx => hrs (List.mem_cons_of_mem i hx)
      cases hn : nextOf db i with
      | none =>
        rw [unlink_go_cons_none f self rest2 hn] at h
        obtain ⟨ihb, ihc⟩ := ih db self rest2 db' hrs2 hu h
        refine ⟨ihb, ?_⟩
        intro j hj s hsdb hsj n hsn hnself
        rcases List.mem_cons.mp hj with hji | hjr
        · exfalso
          rw [nextOf_eq hu hsdb (hji ▸ hsj), hsn] at hn
          cases hn
        · exact ihc j hjr s hsdb hsj n hsn hnself
      | some n0 =>
        by_cases hmem : n0 ∈ self
        · rw [unlink_go_cons_mem f self rest2 hn hmem] at h
          obtain ⟨ihb, ihc⟩ := ih db self rest2 db' hrs2 hu h
          refine ⟨ihb, ?_⟩
          intro j hj s hsdb hsj n hsn hnself
          rcases List.mem_cons.mp hj with hji | hjr
          · exfalso
            rw [nextOf_eq hu hsdb (hji ▸ hsj), hsn] at hn
            exact hnself (Option.some.inj hn ▸ hmem)
          · exact ihc j hjr s hsdb hsj n hsn hnself
        · rw [unlink_go_cons_rec f self rest2 hn hmem] at h
          cases hrec : unlink_go f db [n0] [n0] with
          | error e =>
            simp only [hrec] at h
            cases h
          | ok d2 =>
            simp only [hrec] at h
            have hsub2 : d2.services.Sublist db.services :=
              unlink_go_sublist f db [n0] [n0] d2 hrec
            have hu2 : uniqIds d2 := List.Pairwise.sublist hsub2 hu
            have hsub' : db'.services.Sublist d2.services :=
              unlink_go_sublist f d2 self rest2 db' h
            obtain ⟨ihb2, ihc2⟩ := ih d2 self rest2 db' hrs2 hu2 h
            obtain ⟨ihbR, ihcR⟩ := ih db [n0] [n0] d2 (fun x hx => hx) hu hrec
            have hn0gone : hasId d2 n0 = false := by
              rw [hasId_false_iff]
              intro s hs hsid
              exact absurd (by rw [hsid]; exact List.mem_singleton.mpr rfl)
                (unlink_go_removes f db [n0] [n0] d2 hrec s hs)
            have hkey : ∀ s ∈ db.services, s ∉ d2.services →
                ∀ m, s.next_service_id = some m → hasId d2 m = false := by
              intro s hsdb hsd2 m hsm
              by_cases hsid : s.id = n0
              · by_cases hmn : m = n0
                · rw [hmn]
                  exact hn0gone
                · exact ihcR n0 (List.mem_singleton.mpr rfl) s hsdb hsid m hsm
                    (by simp [hmn])
              · exact ihbR s hsdb hsd2 (by simp [hsid]) m hsm
            constructor
            · intro s hsdb hsdb' hself n hsn
              by_cases hd2 : s ∈ d2.services
              · exact ihb2 s hd2 hsdb' hself n hsn
              · exact hasId_mono hsub' (hkey s hsdb hd2 n hsn)
            · intro j hj s hsdb hsj n hsn hnself
              rcases List.mem_cons.mp hj with hji | hjr
              · have hnn0 : n = n0 := by
                  rw [nextOf_eq hu hsdb (hji ▸ hsj), hsn] at hn
                  exact Option.some.inj hn
                rw [hnn0]
                exact hasId_mono hsub' hn0gone
              · by_cases hd2 : s ∈ d2.services
                · exact ihc2 j hjr s hd2 hsj n hsn hnself
                · exact hasId_mono hsub' (hkey s hsdb hd2 n hsn)

theorem base_unlink_not_mem (db : Db) (self : List Nat) (j : Nat)
    (hj : j ∈ self) : hasId (base_unlink db self) j = false := by
  rw [hasId_false_iff]
  intro t ht htj
  have hmf := List.mem_filter.mp ht
  have hts : t.id ∈ self := by rw [htj]; exact hj
  have hc : t.id ∉ self := by simpa using hmf.2
  exact hc hts

/-- C5: under a batch deletion, every batched service whose successor is
outside the batch has that successor removed from the store as well (and is
itself removed); and deleting a whole two-element chain `{A, B}` with
`A.next = B` in one batch removes both, successfully, with no recursive
delete attempted for the in-batch successor. -/
theorem C5_cascading_delete :
    (∀ (fuel : Nat) (db : Db) (batch : List Nat) (db' : Db) (s : Service) (b : Nat),
      uniqIds db →
      service_unlink fuel db batch = Except.ok db' →
      s ∈ db.services → s.id ∈ batch → s.next_service_id = some b → b ∉ batch →
      hasId db' b = false ∧ hasId db' s.id = false) ∧
    (∀ (db : Db) (a bb : Service),
      uniqIds db → a ∈ db.services → bb ∈ db.services →
      a.next_service_id = some bb.id → bb.next_service_id = none →
      service_unlink 3 db [a.id, bb.id] = Except.ok (base_unlink db [a.id, bb.id]) ∧
      hasId (base_unlink db [a.id, bb.id]) a.id = false ∧
      hasId (base_unlink db [a.id, bb.id]) bb.id = false) := by
  constructor
  · intro fuel db batch db' s b hu h hs hsb hsn hbnb
    constructor
    · exact (unlink_go_cascade fuel db batch batch db' (fun x hx => hx) hu h).2
        s.id hsb s hs rfl b hsn hbnb
    · rw [hasId_false_iff]
      intro t ht hts
      exact (unlink_go_removes fuel db batch batch db' h t ht) (hts ▸ hsb)
  · intro db a bb hu ha hb hab hbn
    have h1 : nextOf db a.id = some bb.id := by
      rw [nextOf_eq hu ha rfl]
      exact hab
    have h2 : nextOf db bb.id = none := by
      rw [nextOf_eq hu hb rfl]
      exact hbn
    have hmem : bb.id ∈ [a.id, bb.id] := by simp
    have run : service_unlink 3 db [a.id, bb.id] =
        Except.ok (base_unlink db [a.id, bb.id]) := by
      unfold service_unlink
      rw [show (3 : Nat) = 2 + 1 from rfl,
        unlink_go_cons_mem 2 [a.id, bb.id] [bb.id] h1 hmem,
        show (2 : Nat) = 1 + 1 from rfl,
        unlink_go_cons_none 1 [a.id, bb.id] [] h2]
      exact unlink_go_nil 0 db [a.id, bb.id]
    exact ⟨run, base_unlink_not_mem db _ a.id (by simp),
      base_unlink_not_mem db _ bb.id (by simp)⟩

def svcC5a : Service :=
  ⟨1, 1, 7, some "g", [], [], [], "", "", "", "", some 0, some 2,
    none, none, "planned", none, some 2⟩

def svcC5b : Service :=
  ⟨2, 1, 7, some "g", [], [], [], "", "", "", "", some 2, some 4,
    none, none, "planned", some 1, none⟩

def dbC5 : Db := ⟨[svcC5a, svcC5b], 3⟩

theorem C5_cascading_delete_witness :
    hasId ⟨[], 3⟩ 2 = false ∧ hasId ⟨[], 3⟩ 1 = false :=
  C5_cascading_delete.1 3 dbC5 [1] ⟨[], 3⟩ svcC5a 2 (by decide) (by rfl)
    (by decide) (by decide) (by decide) (by decide)

end HrDuty
